import Mathlib

/-!
Verification of the X12 837P-to-JSON converter.

The repository has two entry points:
* `x12_837p_to_claims_json.py` — walks claim (2300) and service-line (2400)
  loops of a parsed X12 837P file and emits simplified claim records;
* `x12_to_json_flat.py` — dumps the tokenized segment stream as a flat list.

Both delegate the parsing engine (delimiter detection, segment tokenization,
loop-tree building, and the loop/value query primitives) to the external
`pyx12` library; the engine is therefore modelled here from the
specification (its §3 data model and §4.1–§4.4 component designs), while the
extraction and flat-dump logic is translated directly from the two source
files.
-/

namespace X12

/-- Delimiters of one interchange: element separator, sub-element (composite)
separator and segment terminator, fixed once the header is parsed.
Modelled from the spec: the delimiter handling lives in the external pyx12
library, not in this repository. -/
structure Delimiters where
  elemSep : Char
  subSep : Char
  segTerm : Char
deriving DecidableEq, Repr

/-- Errors of the parsing core.  Modelled from the spec taxonomy (§7):
MalformedHeaderError, offset-qualified TokenizeError, OrphanSegmentError and
AmbiguousLoopTriggerError; the engine raising them is external pyx12 code. -/
inductive ParseError where
  | malformedHeader : ParseError
  | tokenizeError (offset : Nat) : ParseError
  | orphanSegment (segId : String) (offset : Nat) : ParseError
  | ambiguousLoopTrigger (segId : String) (candidates : List String) : ParseError
deriving DecidableEq, Repr

/-- An element of a segment: either a plain string or a composite made of
ordered sub-elements. -/
inductive Element where
  | simple (s : String) : Element
  | composite (parts : List String) : Element
deriving DecidableEq, Repr

/-- A segment: identifier plus ordered elements. -/
structure Segment where
  segId : String
  elements : List Element
deriving DecidableEq, Repr

/-- Expected fixed width of the interchange header segment (the 106-character
ISA segment, terminator included).  Modelled from the spec §4.1. -/
def isaWidth : Nat := 106

/-- Delimiter detector.  Modelled from the spec §4.1: the element separator is
the character immediately following the literal `ISA` identifier (index 3),
the sub-element separator sits at a fixed offset in the header's last field
(index 104), and the segment terminator is the first character after the final
element (index 105).  Fails with `malformedHeader` when the header is shorter
than the fixed width, does not start with the literal identifier, or when any
two separators coincide. -/
def detectDelimiters (input : List Char) : Except ParseError Delimiters :=
  if input.length < isaWidth then
    Except.error ParseError.malformedHeader
  else if input.take 3 ≠ ['I', 'S', 'A'] then
    Except.error ParseError.malformedHeader
  else if input.getD 3 ' ' = input.getD 104 ' ' ∨ input.getD 3 ' ' = input.getD 105 ' ' ∨
      input.getD 104 ' ' = input.getD 105 ' ' then
    Except.error ParseError.malformedHeader
  else
    Except.ok ⟨input.getD 3 ' ', input.getD 104 ' ', input.getD 105 ' '⟩

/-- Split a character list at every occurrence of `c`; `n` separators yield
`n+1` chunks, the last being the unterminated remainder. -/
def splitOnChar (c : Char) : List Char → List (List Char)
  | [] => [[]]
  | x :: xs =>
    match splitOnChar c xs with
    | [] => if x = c then [[], []] else [[x]]
    | r :: rs => if x = c then [] :: r :: rs else (x :: r) :: rs

/-- Strip leading and trailing whitespace from a chunk (the tokenizer trims
incidental line-ending artifacts, spec §4.2). -/
def trimChars (cs : List Char) : List Char :=
  ((cs.dropWhile Char.isWhitespace).reverse.dropWhile Char.isWhitespace).reverse

/-- Build an element from its raw characters: a chunk containing the
sub-element separator becomes a composite of its parts. -/
def mkElement (d : Delimiters) (cs : List Char) : Element :=
  if cs.contains d.subSep then
    Element.composite ((splitOnChar d.subSep cs).map String.mk)
  else
    Element.simple (String.mk cs)

/-- Build a segment from a trimmed chunk: split on the element separator; the
first piece is the identifier, the rest are the elements. -/
def mkSegment (d : Delimiters) (cs : List Char) : Segment :=
  match splitOnChar d.elemSep cs with
  | [] => ⟨"", []⟩
  | idChars :: rest => ⟨String.mk idChars, rest.map (mkElement d)⟩

/-- Configurable maximum raw length of one segment, guarding against a missing
terminator corrupting the rest of the file (spec §4.2). -/
def maxSegmentChars : Nat := 4096

/-- Tokenize the chunk list produced by splitting on the segment terminator.
Modelled from the spec §4.2: each terminated chunk is trimmed (empty ones are
incidental artifacts and are skipped) and turned into a `Segment`; a chunk
longer than the configured maximum fails with an offset-qualified
`tokenizeError`, as does a non-empty, non-whitespace unterminated final
fragment. -/
def tokenizeChunks (d : Delimiters) (off : Nat) :
    List (List Char) → Except ParseError (List Segment)
  | [] => Except.ok []
  | [leftover] =>
    if (trimChars leftover).isEmpty then Except.ok []
    else Except.error (ParseError.tokenizeError off)
  | chunk :: rest =>
    if chunk.length > maxSegmentChars then
      Except.error (ParseError.tokenizeError off)
    else
      let t := trimChars chunk
      if t.isEmpty then
        tokenizeChunks d (off + chunk.length + 1) rest
      else do
        let segs ← tokenizeChunks d (off + chunk.length + 1) rest
        Except.ok (mkSegment d t :: segs)

/-- Segment tokenizer: split the whole input on the segment terminator and
tokenize every chunk in file order.  Modelled from the spec §4.2 (the
tokenizer is pyx12's `X12Reader`, external to this repository). -/
def tokenize (d : Delimiters) (input : List Char) : Except ParseError (List Segment) :=
  tokenizeChunks d 0 (splitOnChar d.segTerm input)

/-- A node of the loop tree: a plain segment, or a loop node carrying its loop
identifier, its occurrence index among same-identifier siblings, and its
children in file order (spec §3 `LoopNode`; the parent back-reference is a
non-owning traversal aid and is not part of the structure). -/
inductive Tree where
  | segNode (s : Segment) : Tree
  | loopNode (loopId : String) (occ : Nat) (children : List Tree) : Tree

/-- Loop identifier of a tree node, `none` for a plain segment child. -/
def treeLoopId : Tree → Option String
  | Tree.segNode _ => none
  | Tree.loopNode lid _ _ => some lid

/-- One entry of the fixed loop-definition grammar (spec §3): identifier,
parent loop (none for the root), trigger rule, advisory occurrence bounds and
permissible children.  Modelled from the spec: the grammar is pyx12's static
map file, external to this repository. -/
structure LoopDefinition where
  loopId : String
  parent : Option String
  triggerSeg : String
  triggerQual : Option (Nat × String)
  minOccurs : Nat
  maxOccurs : Option Nat
  children : List String

/-- An open loop on the builder's stack: its identifier (`none` for the
implicit root), occurrence index, and accumulated children in reverse
file order. -/
structure Frame where
  frameId : Option String
  occ : Nat
  childrenRev : List Tree

/-- Check whether a segment satisfies a trigger qualifier: no qualifier always
matches; a qualifier requires the given element value at the given index. -/
def qualMatches (seg : Segment) : Option (Nat × String) → Bool
  | none => true
  | some (i, v) =>
    match seg.elements.get? i with
    | some (Element.simple s) => s == v
    | some (Element.composite ps) => ps.getD 0 "" == v
    | none => false

/-- Does an open frame carry the given parent loop identifier (the root frame
matches the `none` parent)? -/
def frameMatchesParent (f : Frame) : Option String → Bool
  | none => f.frameId == none
  | some p => f.frameId == some p

/-- Depth (counted from the bottom of the stack, the root being depth 1) of
the topmost open frame matching a candidate's parent, or `none` when the
parent is not on the open path.  The stack lists the innermost frame first. -/
def parentDepth (p : Option String) : List Frame → Option Nat
  | [] => none
  | f :: rest =>
    if frameMatchesParent f p then some (rest.length + 1) else parentDepth p rest

/-- Close the innermost open loop: build its node and append it to the
children of the frame below it.  A one-frame stack (just the root) is left
unchanged. -/
def closeTop : List Frame → List Frame
  | f :: g :: rest =>
    { g with childrenRev :=
        Tree.loopNode (f.frameId.getD "") f.occ f.childrenRev.reverse :: g.childrenRev } :: rest
  | s => s

/-- Close the innermost open loop `k` times. -/
def popTimes : Nat → List Frame → List Frame
  | 0, s => s
  | k + 1, s => popTimes k (closeTop s)

/-- Candidate selection of the builder (spec §4.3 steps 1–3): among the
grammar entries triggered by the segment, keep those whose parent is on the
currently open path, select the deepest one, and fail with
`ambiguousLoopTrigger` when several remain at equal depth. -/
def selectCandidate (g : List LoopDefinition) (stack : List Frame) (seg : Segment) :
    Except ParseError (Option (LoopDefinition × Nat)) :=
  let cands := g.filter fun d => d.triggerSeg == seg.segId && qualMatches seg d.triggerQual
  let scored := cands.filterMap fun d => (parentDepth d.parent stack).map fun n => (d, n)
  let best := scored.foldl
    (fun acc dn =>
      match acc with
      | none => some dn
      | some d0 => if dn.2 > d0.2 then some dn else acc)
    none
  match best with
  | none => Except.ok none
  | some (d, n) =>
    let tied := scored.filter fun dn => dn.2 == n
    if tied.length > 1 then
      Except.error (ParseError.ambiguousLoopTrigger seg.segId (tied.map fun dn => dn.1.loopId))
    else
      Except.ok (some (d, n))

/-- Count how many already-closed loop children of a frame carry the given
loop identifier (the occurrence index of the next sibling, spec §4.3 step 4). -/
def occurrenceIn (f : Frame) (lid : String) : Nat :=
  f.childrenRev.countP fun c =>
    match c with
    | Tree.loopNode l _ _ => l == lid
    | Tree.segNode _ => false

/-- One step of the loop-hierarchy builder (spec §4.3): a non-triggering
segment attaches to the innermost open loop; a triggering segment closes open
loops down to its parent and opens a new loop node with the segment as first
child.  Modelled from the spec: the builder is pyx12's context reader,
external to this repository. -/
def stepSegment (g : List LoopDefinition) (stack : List Frame) (seg : Segment) :
    Except ParseError (List Frame) := do
  match ← selectCandidate g stack seg with
  | none =>
    match stack with
    | [] => Except.error (ParseError.orphanSegment seg.segId 0)
    | f :: rest =>
      Except.ok ({ f with childrenRev := Tree.segNode seg :: f.childrenRev } :: rest)
  | some (d, n) =>
    match popTimes (stack.length - n) stack with
    | [] => Except.error (ParseError.orphanSegment seg.segId 0)
    | f :: rest =>
      Except.ok
        ({ frameId := some d.loopId, occ := occurrenceIn f d.loopId,
           childrenRev := [Tree.segNode seg] } :: f :: rest)

/-- Build the loop tree from the segment stream: start with only the implicit
root open, feed every segment in order, and at end of stream close every loop
still open (spec §4.3 step 5). -/
def buildTree (g : List LoopDefinition) (segs : List Segment) : Except ParseError Tree := do
  let final ← segs.foldlM (stepSegment g) [⟨none, 0, []⟩]
  match popTimes (final.length - 1) final with
  | f :: _ => Except.ok (Tree.loopNode "root" 0 f.childrenRev.reverse)
  | [] => Except.ok (Tree.loopNode "root" 0 [])

mutual

/-- Query primitive `loopsOf` (spec §4.4): ordered depth-first sequence of all
descendant-or-self loop nodes matching the requested loop identifier; the
empty sequence, never an error, when none match.  Modelled from the spec: the
primitive is pyx12's loop selection, external to this repository. -/
def loopsOf : Tree → String → List Tree
  | Tree.segNode _, _ => []
  | Tree.loopNode lid occ cs, target =>
    (if lid = target then [Tree.loopNode lid occ cs] else []) ++ loopsOfList cs target

/-- Depth-first, file-ordered accumulation of `loopsOf` over a child list. -/
def loopsOfList : List Tree → String → List Tree
  | [], _ => []
  | c :: cs, target => loopsOf c target ++ loopsOfList cs target

end

mutual

/-- All descendant-or-self loop nodes of a tree node, depth first in file
order (every plain segment child is skipped). -/
def allLoopNodes : Tree → List Tree
  | Tree.segNode _ => []
  | Tree.loopNode lid occ cs => Tree.loopNode lid occ cs :: allLoopNodesList cs

/-- Depth-first accumulation of `allLoopNodes` over a child list. -/
def allLoopNodesList : List Tree → List Tree
  | [] => []
  | c :: cs => allLoopNodes c ++ allLoopNodesList cs

end

/-- Direct segment children of a node, in file order (nested loop nodes are
not traversed, spec §4.4). -/
def directSegments : Tree → List Segment
  | Tree.segNode _ => []
  | Tree.loopNode _ _ cs =>
    cs.filterMap fun c =>
      match c with
      | Tree.segNode s => some s
      | Tree.loopNode _ _ _ => none

/-- First direct segment child with the given identifier, or `none`. -/
def findSegment (n : Tree) (sid : String) : Option Segment :=
  (directSegments n).find? fun s => s.segId == sid

/-- Read an element, or one of its sub-elements when a sub-index is given;
`none` when the requested piece does not exist. -/
def subAt : Element → Option Nat → Option String
  | Element.simple s, none => some s
  | Element.simple s, some i => if i = 0 then some s else none
  | Element.composite _, none => none
  | Element.composite ps, some i => ps.get? i

/-- Query primitive `valueAt` (spec §4.4): search only the node's direct
segment children, in file order, for the first segment matching the
identifier and return the element (or sub-element) at the given index;
an explicit absent value, never an error, when the segment, the element
index, or the sub-index does not exist.  Modelled from the spec: the
primitive is pyx12's `get_value`, external to this repository. -/
def valueAt (n : Tree) (sid : String) (idx : Nat) (sub : Option Nat) : Option String :=
  match findSegment n sid with
  | none => none
  | some s =>
    match s.elements.get? idx with
    | none => none
    | some e => subAt e sub

/-- Modelled from the spec: the 837P grammar instance used by pyx12's static
map files (not part of this repository) — a claim loop (2300) triggered by
the CLM segment directly under the root, and a service-line loop (2400)
triggered by the SV1 segment under the claim loop. -/
def grammar837p : List LoopDefinition :=
  [⟨"claim", none, "CLM", none, 0, some 100, ["serviceLine"]⟩,
   ⟨"serviceLine", some "claim", "SV1", none, 0, some 50, []⟩]

/-- One service-line record of the claims converter: procedure code (SV101)
and line charge (SV102), each absent field carried as `none` and serialized
as JSON null. -/
structure ServiceLine where
  procedure_code : Option String
  line_charge : Option String
deriving DecidableEq, Repr

/-- One claim record of the claims converter: claim identifier (CLM01), total
charge (CLM02) and the nested service-line records. -/
structure ClaimRecord where
  claim_id : Option String
  total_charge : Option String
  service_lines : List ServiceLine
deriving DecidableEq, Repr

/-- Service-line extraction of `x12_837p_to_claims_json.py` (the loop body at
lines 94–113): read SV101 and SV102 of the service-line loop and emit the
record unconditionally. -/
def serviceLineOf (sl : Tree) : ServiceLine :=
  ⟨valueAt sl "SV1" 0 none, valueAt sl "SV1" 1 none⟩

/-- Per-claim extraction of `x12_837p_to_claims_json.py` (lines 79–122): read
CLM01 and CLM02; when both are absent skip the entry entirely (the filter at
lines 85–86), otherwise emit the claim record with its service lines in file
order. -/
def claimRecordOf (cl : Tree) : Option ClaimRecord :=
  let cid := valueAt cl "CLM" 0 none
  let tot := valueAt cl "CLM" 1 none
  if cid = none ∧ tot = none then none
  else some ⟨cid, tot, (loopsOf cl "serviceLine").map serviceLineOf⟩

/-- Claim extraction over a built tree (`extract_claims_from_837p`, lines
77–125): iterate the claim loops in file order and accumulate the records the
per-claim filter keeps. -/
def extractClaims (tree : Tree) : List ClaimRecord :=
  (loopsOf tree "claim").filterMap claimRecordOf

/-- End-to-end parse of `x12_837p_to_claims_json.py`: detect delimiters,
tokenize, and build the loop tree (the engine steps are pyx12's, modelled
from the spec). -/
def parse837pTree (input : List Char) : Except ParseError Tree := do
  let d ← detectDelimiters input
  let segs ← tokenize d input
  buildTree grammar837p segs

/-- Full converter `extract_claims_from_837p`: parse the input and extract
the claim records; any engine error aborts the whole run with no partial
output. -/
def extract_claims_from_837p (input : List Char) : Except ParseError (List ClaimRecord) :=
  (parse837pTree input).map extractClaims

/-- One record of the flat dump: segment identifier plus its ordered element
values (`x12_to_json_flat.py`, lines 111–125). -/
structure FlatSegment where
  segment_id : String
  elements : List Element
deriving DecidableEq, Repr

/-- Output of the flat dump: the segment records in file order
(`x12_to_json_flat.py`, line 128; the `file` path field is I/O context and
out of scope). -/
structure FlatDump where
  segments : List FlatSegment
deriving DecidableEq, Repr

/-- The per-segment record construction of the flat dump loop
(`x12_to_json_flat.py`, lines 111–125). -/
def flatRecordOfSegment (s : Segment) : FlatSegment :=
  ⟨s.segId, s.elements⟩

/-- Flat converter `x12_to_flat_json` (lines 47–128): tokenize the input and
record every segment, in order, as a flat list. -/
def x12_to_flat_json (input : List Char) : Except ParseError FlatDump := do
  let d ← detectDelimiters input
  let segs ← tokenize d input
  Except.ok ⟨segs.map flatRecordOfSegment⟩

/-- Outcome of one CLI run: the process exit code and the output artifact
(`none` when no output is written). -/
structure CLIOutcome (α : Type) where
  exitCode : Nat
  written : Option α
deriving DecidableEq, Repr

/-- CLI boundary of `x12_837p_to_claims_json.py` (lines 128–143): the output
is written only after the extraction returned; an error propagates to a
non-zero exit with no output artifact. -/
def runClaimsCLI (input : List Char) : CLIOutcome (List ClaimRecord) :=
  match extract_claims_from_837p input with
  | Except.ok cs => ⟨0, some cs⟩
  | Except.error _ => ⟨1, none⟩

/-- CLI boundary of `x12_to_json_flat.py` (lines 131–153): the output is
written only after the conversion returned; an error propagates to a
non-zero exit with no output artifact. -/
def runFlatCLI (input : List Char) : CLIOutcome FlatDump :=
  match x12_to_flat_json input with
  | Except.ok dump => ⟨0, some dump⟩
  | Except.error _ => ⟨1, none⟩

/-- JSON values, modelling what `json.dumps` serializes. -/
inductive Json where
  | null : Json
  | jstr (s : String) : Json
  | jarr (xs : List Json) : Json
  | jobj (fields : List (String × Json)) : Json

/-- Serialize an optional string: a missing value becomes JSON null. -/
def jsonOfOpt : Option String → Json
  | none => Json.null
  | some s => Json.jstr s

/-- JSON rendering of one service-line record: the dict literal at lines
102–113 of `x12_837p_to_claims_json.py`. -/
def serviceLineJson (sl : ServiceLine) : Json :=
  Json.jobj [("procedure_code", jsonOfOpt sl.procedure_code),
             ("line_charge", jsonOfOpt sl.line_charge)]

/-- JSON rendering of one claim record: the dict literal at lines 116–122 of
`x12_837p_to_claims_json.py`. -/
def claimJson (c : ClaimRecord) : Json :=
  Json.jobj [("claim_id", jsonOfOpt c.claim_id),
             ("total_charge", jsonOfOpt c.total_charge),
             ("service_lines", Json.jarr (c.service_lines.map serviceLineJson))]

/-- Key list of a JSON object, `none` for any non-object value. -/
def objKeys : Json → Option (List String)
  | Json.jobj fields => some (fields.map Prod.fst)
  | _ => none

/-- Value stored under a key of a JSON object, `none` when absent or when the
value is not an object. -/
def objField : Json → String → Option Json
  | Json.jobj fields, k => (fields.find? fun f => f.1 == k).map Prod.snd
  | _, _ => none

/-- The claim is kept by the filter at lines 85–86 of
`x12_837p_to_claims_json.py` exactly when at least one of CLM01 and CLM02 is
present. -/
def keepClaim (cl : Tree) : Bool :=
  !((valueAt cl "CLM" 0 none).isNone && (valueAt cl "CLM" 1 none).isNone)

/-- The record built for a kept claim: CLM01, CLM02 and the service lines in
file order. -/
def claimRecordTotal (cl : Tree) : ClaimRecord :=
  ⟨valueAt cl "CLM" 0 none, valueAt cl "CLM" 1 none,
   (loopsOf cl "serviceLine").map serviceLineOf⟩

/-- A 106-character interchange header declaring the conventional `*` element
separator, `:` composite separator and `~` segment terminator. -/
def isaHeader : String :=
  "ISA*00*          *00*          *ZZ*SENDERID       *ZZ*RECEIVERID     *240101*1200*^*00501*000000001*0*T*:~"

/-- The end-to-end input of spec §8: one claim loop (CLAIM001, 250.00) with
two nested service lines (99213, 100.00) and (99214, 150.00). -/
def c6Input : List Char :=
  (isaHeader ++
    "GS*HC*S*R*20240101*1200*1*X*005010X222A1~ST*837*0001~" ++
    "BHT*0019*00*123*20240101*1200*CH~CLM*CLAIM001*250.00~" ++
    "SV1*99213*100.00~SV1*99214*150.00~SE*5*0001~GE*1*1~IEA*1*000000001~").toList

/-- The segment stream the tokenizer produces for `c6Input`. -/
def c6Segments : List Segment :=
  [⟨"ISA", [Element.simple "00", Element.simple "          ", Element.simple "00",
            Element.simple "          ", Element.simple "ZZ",
            Element.simple "SENDERID       ", Element.simple "ZZ",
            Element.simple "RECEIVERID     ", Element.simple "240101",
            Element.simple "1200", Element.simple "^", Element.simple "00501",
            Element.simple "000000001", Element.simple "0", Element.simple "T",
            Element.composite ["", ""]]⟩,
   ⟨"GS", [Element.simple "HC", Element.simple "S", Element.simple "R",
           Element.simple "20240101", Element.simple "1200", Element.simple "1",
           Element.simple "X", Element.simple "005010X222A1"]⟩,
   ⟨"ST", [Element.simple "837", Element.simple "0001"]⟩,
   ⟨"BHT", [Element.simple "0019", Element.simple "00", Element.simple "123",
            Element.simple "20240101", Element.simple "1200", Element.simple "CH"]⟩,
   ⟨"CLM", [Element.simple "CLAIM001", Element.simple "250.00"]⟩,
   ⟨"SV1", [Element.simple "99213", Element.simple "100.00"]⟩,
   ⟨"SV1", [Element.simple "99214", Element.simple "150.00"]⟩,
   ⟨"SE", [Element.simple "5", Element.simple "0001"]⟩,
   ⟨"GE", [Element.simple "1", Element.simple "1"]⟩,
   ⟨"IEA", [Element.simple "1", Element.simple "000000001"]⟩]

/-- An input whose header segment is far shorter than the fixed 106-character
width. -/
def shortHeaderInput : List Char := "ISA*00*SHORT~".toList

/-- A small service-line loop whose SV1 segment carries only the procedure
code (the line charge is absent). -/
def sampleServiceLine : Tree :=
  Tree.loopNode "serviceLine" 0 [Tree.segNode ⟨"SV1", [Element.simple "99213"]⟩]

/-- A small claim loop whose CLM segment carries only the claim identifier
`A1` (the total charge is absent), with one nested service line. -/
def sampleClaim : Tree :=
  Tree.loopNode "claim" 0 [Tree.segNode ⟨"CLM", [Element.simple "A1"]⟩, sampleServiceLine]

/-- A claim-level entry with no CLM data at all, mirroring the loop/segment
noise the upstream filter drops. -/
def noiseClaim : Tree := Tree.loopNode "claim" 1 []

/-- A small root tree holding one real claim and one noise entry. -/
def sampleRoot : Tree := Tree.loopNode "root" 0 [sampleClaim, noiseClaim]

/-- The per-claim extraction, written as a keep-filter followed by the total
record builder. -/
theorem claimRecordOf_eq_keep (cl : Tree) :
    claimRecordOf cl = if keepClaim cl then some (claimRecordTotal cl) else none := by
  unfold claimRecordOf keepClaim claimRecordTotal
  by_cases h1 : valueAt cl "CLM" 0 none = none <;>
    by_cases h2 : valueAt cl "CLM" 1 none = none <;>
      simp [h1, h2, Option.isSome_iff_ne_none]

/-- A `filterMap` whose function splits into a boolean keep-test and a total
builder is the `map` of the builder over the `filter` of the test. -/
theorem filterMap_eq_map_filter {α β : Type} (f : α → Option β) (p : α → Bool)
    (g : α → β) (h : ∀ x, f x = if p x then some (g x) else none) :
    ∀ l : List α, l.filterMap f = (l.filter p).map g := by
  intro l
  induction l with
  | nil => simp
  | cons x xs ih =>
    by_cases hp : p x <;> simp [List.filterMap_cons, List.filter_cons, h x, hp, ih]

mutual

/-- The `loopsOf` query is exactly the identifier filter over the depth-first
list of all descendant-or-self loop nodes. -/
theorem loopsOf_eq_filter : ∀ (n : Tree) (lid : String),
    loopsOf n lid = (allLoopNodes n).filter fun m => treeLoopId m == some lid
  | Tree.segNode _, _ => by simp [loopsOf, allLoopNodes]
  | Tree.loopNode l o cs, lid => by
    have ih := loopsOfList_eq_filter cs lid
    by_cases h : l = lid <;>
      simp [loopsOf, allLoopNodes, List.filter_cons, treeLoopId, h, ih]

/-- List version of `loopsOf_eq_filter`. -/
theorem loopsOfList_eq_filter : ∀ (cs : List Tree) (lid : String),
    loopsOfList cs lid = (allLoopNodesList cs).filter fun m => treeLoopId m == some lid
  | [], _ => by simp [loopsOfList, allLoopNodesList]
  | c :: cs, lid => by
    have ih1 := loopsOf_eq_filter c lid
    have ih2 := loopsOfList_eq_filter cs lid
    simp [loopsOfList, allLoopNodesList, List.filter_append, ih1, ih2]

end

/-- C1: for every claim-level loop node, the extraction (a `filterMap` of the
per-claim function over the claim loops in file order) emits no record exactly
when both CLM01 and CLM02 are absent; when at least one is present, the
emitted record carries the two (possibly absent, hence null) values. -/
theorem claim_dropped_iff_both_fields_absent :
    ∀ tree cl : Tree,
      extractClaims tree = (loopsOf tree "claim").filterMap claimRecordOf ∧
      (claimRecordOf cl = none ↔
        valueAt cl "CLM" 0 none = none ∧ valueAt cl "CLM" 1 none = none) ∧
      (∀ r : ClaimRecord, claimRecordOf cl = some r →
        r.claim_id = valueAt cl "CLM" 0 none ∧
        r.total_charge = valueAt cl "CLM" 1 none) := by
  intro tree cl
  refine ⟨rfl, ?_, ?_⟩
  · rw [claimRecordOf_eq_keep]
    by_cases h1 : valueAt cl "CLM" 0 none = none <;>
      by_cases h2 : valueAt cl "CLM" 1 none = none <;>
        simp [keepClaim, h1, h2]
  · intro r hr
    rw [claimRecordOf_eq_keep] at hr
    by_cases hk : keepClaim cl
    · simp [hk] at hr
      subst hr
      exact ⟨rfl, rfl⟩
    · simp [hk] at hr

/-- C1 witness: on the sample tree, the kept claim with only CLM01 present
has its record fields equal to the query results, and the noise entry with
both fields absent is dropped. -/
theorem claim_dropped_iff_both_fields_absent_witness :
    claimRecordOf noiseClaim = none ∧
    (⟨some "A1", none, [⟨some "99213", none⟩]⟩ : ClaimRecord).claim_id =
      valueAt sampleClaim "CLM" 0 none := by
  refine ⟨?_, ?_⟩
  · exact (claim_dropped_iff_both_fields_absent sampleRoot noiseClaim).2.1.mpr
      ⟨rfl, rfl⟩
  · exact ((claim_dropped_iff_both_fields_absent sampleRoot sampleClaim).2.2
      ⟨some "A1", none, [⟨some "99213", none⟩]⟩ rfl).1

/-- C3: every emitted claim record carries one service-line record per
service-line loop nested under the claim — service lines are never dropped —
and each record holds exactly the SV101 and SV102 query results, which are
`none` (serialized null) when absent. -/
theorem service_lines_emitted_unconditionally :
    ∀ (cl : Tree) (r : ClaimRecord), claimRecordOf cl = some r →
      r.service_lines = (loopsOf cl "serviceLine").map serviceLineOf ∧
      r.service_lines.length = (loopsOf cl "serviceLine").length ∧
      ∀ sl : Tree, serviceLineOf sl =
        ⟨valueAt sl "SV1" 0 none, valueAt sl "SV1" 1 none⟩ := by
  intro cl r hr
  rw [claimRecordOf_eq_keep] at hr
  by_cases hk : keepClaim cl
  · simp [hk] at hr
    subst hr
    exact ⟨rfl, List.length_map _ _, fun _ => rfl⟩
  · simp [hk] at hr

/-- C3 witness: on the sample claim, whose single service line misses the
line charge, the record keeps one service line per loop. -/
theorem service_lines_emitted_unconditionally_witness :
    (⟨some "A1", none, [⟨some "99213", none⟩]⟩ : ClaimRecord).service_lines.length =
      (loopsOf sampleClaim "serviceLine").length :=
  (service_lines_emitted_unconditionally sampleClaim
    ⟨some "A1", none, [⟨some "99213", none⟩]⟩ rfl).2.1

/-- C4: the extraction output preserves file order at every level — the claim
records are the map of the total record builder over the file-ordered kept
claim loops, and each record's service lines are the map of the service-line
builder over the file-ordered service-line loops of that claim. -/
theorem extraction_preserves_file_order :
    ∀ tree : Tree,
      extractClaims tree =
        ((loopsOf tree "claim").filter keepClaim).map claimRecordTotal ∧
      ∀ cl : Tree, (claimRecordTotal cl).service_lines =
        (loopsOf cl "serviceLine").map serviceLineOf := by
  intro tree
  refine ⟨?_, fun _ => rfl⟩
  exact filterMap_eq_map_filter claimRecordOf keepClaim claimRecordTotal
    claimRecordOf_eq_keep (loopsOf tree "claim")

/-- C5: the query API is total on missing data — `loopsOf` is the identifier
filter over all descendant-or-self loop nodes (hence the empty list, never an
error, when none match), and `valueAt` returns the explicit absent value when
the segment or the element index does not exist, as it does for an
out-of-range sub-index. -/
theorem query_api_absent_yields_empty_or_none :
    ∀ (n : Tree) (lid sid : String) (i j : Nat) (sub : Option Nat),
      loopsOf n lid = ((allLoopNodes n).filter fun m => treeLoopId m == some lid) ∧
      (findSegment n sid = none → valueAt n sid i sub = none) ∧
      (∀ s : Segment, findSegment n sid = some s → s.elements.get? i = none →
        valueAt n sid i sub = none) ∧
      (∀ ps : List String, ps.get? j = none →
        subAt (Element.composite ps) (some j) = none) := by
  intro n lid sid i j sub
  refine ⟨loopsOf_eq_filter n lid, ?_, ?_, fun ps hps => hps⟩
  · intro h
    simp [valueAt, h]
  · intro s hs he
    rw [List.get?_eq_getElem?] at he
    simp [valueAt, hs, he]

/-- C5 witness: on the sample tree, no loop matches the identifier `2010BA`
(empty list), and querying an unknown segment or an out-of-range element of
the CLM segment yields the absent value. -/
theorem query_api_absent_yields_empty_or_none_witness :
    loopsOf sampleRoot "2010BA" =
      ((allLoopNodes sampleRoot).filter fun m => treeLoopId m == some "2010BA") ∧
    valueAt sampleClaim "REF" 0 none = none ∧
    valueAt sampleClaim "CLM" 5 none = none := by
  refine ⟨(query_api_absent_yields_empty_or_none sampleRoot "2010BA" "REF" 0 0 none).1,
    (query_api_absent_yields_empty_or_none sampleRoot "2010BA" "REF" 0 0 none).2.1 rfl,
    (query_api_absent_yields_empty_or_none sampleClaim "2010BA" "CLM" 5 0 none).2.2.1
      ⟨"CLM", [Element.simple "A1"]⟩ rfl rfl⟩

/-- Binding a successful `Except` computation continues with its value. -/
@[simp]
theorem except_bind_ok {ε α β : Type} (a : α) (f : α → Except ε β) :
    (Except.ok a : Except ε α) >>= f = f a := rfl

/-- Binding a failed `Except` computation propagates the error unchanged. -/
@[simp]
theorem except_bind_error {ε α β : Type} (e : ε) (f : α → Except ε β) :
    (Except.error e : Except ε α) >>= f = Except.error e := rfl

/-- C2: for every well-formed interchange (delimiters detected and the stream
tokenized), the flat dump's segment list is exactly the per-segment record
map over the tokenizer's segment sequence — one entry per segment, in file
order, none duplicated or dropped — so its length equals the tokenizer's
segment count. -/
theorem flat_dump_equals_tokenizer_stream :
    ∀ (input : List Char) (d : Delimiters) (segs : List Segment),
      detectDelimiters input = Except.ok d →
      tokenize d input = Except.ok segs →
      x12_to_flat_json input = Except.ok ⟨segs.map flatRecordOfSegment⟩ ∧
      (segs.map flatRecordOfSegment).length = segs.length ∧
      ∀ i : Nat, (segs.map flatRecordOfSegment).get? i =
        (segs.get? i).map flatRecordOfSegment := by
  intro input d segs h1 h2
  refine ⟨?_, List.length_map _ _, fun i => ?_⟩
  · simp [x12_to_flat_json, h1, h2]
  · simp [List.get?_eq_getElem?, List.getElem?_map]

set_option maxRecDepth 200000 in
set_option maxHeartbeats 4000000 in
/-- C2 witness: on the end-to-end input, the flat dump records exactly the
ten tokenized segments in file order. -/
theorem flat_dump_equals_tokenizer_stream_witness :
    x12_to_flat_json c6Input = Except.ok ⟨c6Segments.map flatRecordOfSegment⟩ ∧
    (c6Segments.map flatRecordOfSegment).length = c6Segments.length :=
  ⟨(flat_dump_equals_tokenizer_stream c6Input ⟨'*', ':', '~'⟩ c6Segments rfl rfl).1,
   (flat_dump_equals_tokenizer_stream c6Input ⟨'*', ':', '~'⟩ c6Segments rfl rfl).2.1⟩

set_option maxRecDepth 200000 in
set_option maxHeartbeats 4000000 in
/-- C6: the end-to-end input declaring `*`/`:`/`~` delimiters, with one claim
loop (CLAIM001, 250.00) and two nested service lines (99213, 100.00) and
(99214, 150.00), extracts to exactly one claim record whose two service lines
appear in that order, every monetary value kept as its literal string. -/
theorem end_to_end_claim001 :
    extract_claims_from_837p c6Input =
      Except.ok [⟨some "CLAIM001", some "250.00",
        [⟨some "99213", some "100.00"⟩, ⟨some "99214", some "150.00"⟩]⟩] := by
  rfl

/-- C7: any error of the parsing core (header, tokenization or builder)
aborts the whole extraction with that error — no partial claim output exists —
and at the CLI boundary it maps to a non-zero exit with no output artifact. -/
theorem core_error_aborts_without_output :
    ∀ (input : List Char) (e : ParseError),
      parse837pTree input = Except.error e →
      extract_claims_from_837p input = Except.error e ∧
      runClaimsCLI input = ⟨1, none⟩ := by
  intro input e h
  have h2 : extract_claims_from_837p input = Except.error e := by
    simp [extract_claims_from_837p, h, Except.map]
  exact ⟨h2, by simp [runClaimsCLI, h2]⟩

/-- C7 witness: the short-header input aborts with a malformed-header error,
a non-zero exit and no output. -/
theorem core_error_aborts_without_output_witness :
    extract_claims_from_837p shortHeaderInput =
      Except.error ParseError.malformedHeader ∧
    runClaimsCLI shortHeaderInput = ⟨1, none⟩ :=
  core_error_aborts_without_output shortHeaderInput ParseError.malformedHeader rfl

/-- C8: an input whose header is shorter than the fixed 106-character width,
or in which any two of the three separators (element separator, sub-element
separator, segment terminator, read at the fixed header offsets 3, 104 and
105) coincide, fails with `malformedHeader`; both converters then exit
non-zero and write no output artifact. -/
theorem malformed_header_nonzero_exit_no_output :
    ∀ input : List Char,
      input.length < isaWidth ∨ input.getD 3 ' ' = input.getD 104 ' ' ∨
        input.getD 3 ' ' = input.getD 105 ' ' ∨
        input.getD 104 ' ' = input.getD 105 ' ' →
      detectDelimiters input = Except.error ParseError.malformedHeader ∧
      x12_to_flat_json input = Except.error ParseError.malformedHeader ∧
      runFlatCLI input = ⟨1, none⟩ ∧
      runClaimsCLI input = ⟨1, none⟩ := by
  intro input h
  have hd : detectDelimiters input = Except.error ParseError.malformedHeader := by
    unfold detectDelimiters
    split_ifs with h1 h2 h3
    · rfl
    · rfl
    · rfl
    · rcases h with h | h
      · exact absurd h h1
      · exact absurd h h3
  have hf : x12_to_flat_json input = Except.error ParseError.malformedHeader := by
    simp [x12_to_flat_json, hd]
  have hc : extract_claims_from_837p input = Except.error ParseError.malformedHeader := by
    simp [extract_claims_from_837p, parse837pTree, hd, Except.map]
  exact ⟨hd, hf, by simp [runFlatCLI, hf], by simp [runClaimsCLI, hc]⟩

/-- C8 witness: the 13-character header input fails with `malformedHeader`
and both CLI runs exit non-zero, writing nothing. -/
theorem malformed_header_nonzero_exit_no_output_witness :
    detectDelimiters shortHeaderInput = Except.error ParseError.malformedHeader ∧
    x12_to_flat_json shortHeaderInput = Except.error ParseError.malformedHeader ∧
    runFlatCLI shortHeaderInput = ⟨1, none⟩ ∧
    runClaimsCLI shortHeaderInput = ⟨1, none⟩ :=
  malformed_header_nonzero_exit_no_output shortHeaderInput (Or.inl (by decide))

/-- C9: parsing and extraction are deterministic — identical inputs yield
structurally equal trees, claim outputs and flat dumps. -/
theorem parsing_deterministic :
    ∀ s t : List Char, s = t →
      parse837pTree s = parse837pTree t ∧
      extract_claims_from_837p s = extract_claims_from_837p t ∧
      x12_to_flat_json s = x12_to_flat_json t := by
  intro s t h
  subst h
  exact ⟨rfl, rfl, rfl⟩

/-- C9 witness: two runs on the same concrete input agree. -/
theorem parsing_deterministic_witness :
    parse837pTree shortHeaderInput = parse837pTree shortHeaderInput ∧
    extract_claims_from_837p shortHeaderInput =
      extract_claims_from_837p shortHeaderInput ∧
    x12_to_flat_json shortHeaderInput = x12_to_flat_json shortHeaderInput :=
  parsing_deterministic shortHeaderInput shortHeaderInput rfl

/-- C10: every record the extraction returns serializes to an object with
exactly the keys `claim_id`, `total_charge` and `service_lines`; the
`service_lines` value is always a JSON array (the one mapped from the claim's
service-line loops, hence empty — never null — when the claim has none), and
every entry serializes to an object with exactly the keys `procedure_code`
and `line_charge`. -/
theorem claim_records_have_exact_keys :
    ∀ (tree : Tree) (r : ClaimRecord), r ∈ extractClaims tree →
      objKeys (claimJson r) = some ["claim_id", "total_charge", "service_lines"] ∧
      objField (claimJson r) "service_lines" =
        some (Json.jarr (r.service_lines.map serviceLineJson)) ∧
      (∀ sl ∈ r.service_lines,
        objKeys (serviceLineJson sl) = some ["procedure_code", "line_charge"]) ∧
      ∀ cl : Tree, claimRecordOf cl = some r →
        r.service_lines = (loopsOf cl "serviceLine").map serviceLineOf := by
  intro tree r _
  refine ⟨rfl, rfl, fun _ _ => rfl, ?_⟩
  intro cl hcl
  rw [claimRecordOf_eq_keep] at hcl
  by_cases hk : keepClaim cl
  · simp [hk] at hcl
    subst hcl
    rfl
  · simp [hk] at hcl

/-- C10 witness: the record extracted from the sample tree serializes with
exactly the three claim keys and the two service-line keys. -/
theorem claim_records_have_exact_keys_witness :
    objKeys (claimJson ⟨some "A1", none, [⟨some "99213", none⟩]⟩) =
      some ["claim_id", "total_charge", "service_lines"] ∧
    objKeys (serviceLineJson ⟨some "99213", none⟩) =
      some ["procedure_code", "line_charge"] := by
  have h := claim_records_have_exact_keys sampleRoot
    ⟨some "A1", none, [⟨some "99213", none⟩]⟩ (by decide)
  exact ⟨h.1, h.2.2.1 ⟨some "99213", none⟩ (by decide)⟩

end X12
